import Mathlib

/-!
Verification of the tg-autorepost repost pipeline (`src/main.py`) against its
natural-language specification.

The embedding models the pure data flow of `main.py`:

* a `Msg` mirrors the fields of a Telethon `Message` that the code reads
  (`id`, `text`, `message`, `media`, `grouped_id`); media bytes are modelled
  by an opaque `Nat` token returned by `client.download_media`;
* the transport (`client.send_file` / `client.send_message`) is modelled by a
  response oracle `Nat → Resp` giving the response to each successive call;
* exceptions are modelled with `Except String`; `asyncio.sleep` durations are
  collected in a list so the backoff policy is visible in the result;
* the global `state["last_id"]` watermark is passed and returned explicitly.
-/

/-- Response of one transport delivery call (`client.send_file` /
`client.send_message`): success, a `FloodWaitError` carrying the required wait
in seconds, or any other exception carrying its detail string. -/
inductive Resp
  | ok
  | floodWait (seconds : Nat)
  | err (detail : String)
deriving DecidableEq

/-- How a call to `safe_send_file` / `safe_send_message` terminates: the send
succeeded and the function returned the sent message; the `for` loop was
exhausted and the function fell through returning `None`; or an exception
propagated out of the function. -/
inductive SendOutcome
  | sent
  | returnedNone
  | raised (detail : String)
deriving DecidableEq

/-- An outbound delivery that actually reached the target channel. -/
inductive Delivery
  | sendFile (files : List Nat) (caption : String)
  | sendMessage (text : String)
deriving DecidableEq

/-- The fields of a Telethon `Message` read by `main.py`.  `text` and
`message` are the two caption attributes consulted by
`msg.text or msg.message or ""`; `media` is the optional attachment, modelled
by the token that `client.download_media` returns for it. -/
structure Msg where
  id : Nat
  text : Option String
  message : Option String
  media : Option Nat
  grouped_id : Option Nat
deriving DecidableEq

/-- The configuration surface read by the functions under verification:
`KEEP_HASHTAGS`, `SIGNATURE`, the OpenAI client (`none` when no key is
configured; `some none` when the chat call raises; `some (some s)` when it
returns content `s`), `RETRY_COUNT` and `RETRY_DELAY_SEC`. -/
structure Config where
  keepHashtags : Bool
  signature : String
  backend : Option (Option String)
  retryCount : Nat
  retryDelay : Nat

/-- Python `a or b` for an `Optional[str]` left operand: the left value when
it is truthy (present and non-empty), otherwise the right operand. -/
def pyStrOr (a : Option String) (b : String) : String :=
  match a with
  | some s => if s = "" then b else s
  | none => b

/-- `msg.text or msg.message or ""` as read by both repost functions. -/
def caption_src (m : Msg) : String :=
  pyStrOr m.text (pyStrOr m.message "")

/-- Embeds `_preserve_hashtags` (`main.py` lines 85-96).  For non-empty text
the function calls `re.findall` with the pattern `(#[\w\p{L}\p{N}_]+)`;
Python's `re` module does not support `\p{...}` escapes (the third-party
`regex` module does), and since Python 3.7 an unknown ASCII-letter escape in a
pattern raises `re.error: bad escape \p`.  The repository requires
Python >= 3.7.1 (`from openai import OpenAI`), so the call raises for every
non-empty input; the empty string returns `("", [])` before reaching the
regex. -/
def _preserve_hashtags (text : String) : Except String (String × List String) :=
  if text = "" then Except.ok ("", [])
  else Except.error "re.error: bad escape \\p"

/-- Embeds `_restore_hashtags` (`main.py` lines 98-102): for each recorded
token, in index order, replace every occurrence of the placeholder
`__HTAG_i__` with the token (`str.replace` replaces all occurrences). -/
def _restore_hashtags (text : String) (placeholders : List String) : String :=
  placeholders.enum.foldl
    (fun t p => t.replace ("__HTAG_" ++ toString p.1 ++ "__") p.2) text

/-- Python `str.strip()` with no arguments: drop leading and trailing
whitespace characters (modelled with `Char.isWhitespace`, which covers the
ASCII whitespace relevant here), written structurally over the character
list. -/
def pyStrip (s : String) : String :=
  String.mk (((s.data.dropWhile Char.isWhitespace).reverse.dropWhile
    Char.isWhitespace).reverse)

/-- Is the character in the class `[ \t]` of the `_normalize` regex? -/
def isSpaceTab (c : Char) : Bool :=
  c = ' ' || c = '\t'

/-- One pass of `re.sub(r"[ \t]+", " ", text)`: every maximal run of spaces
and tabs collapses to a single space. -/
def collapseRuns : List Char → List Char
  | [] => []
  | [c] => if isSpaceTab c then [' '] else [c]
  | a :: b :: rest =>
    if isSpaceTab a then
      if isSpaceTab b then collapseRuns (b :: rest)
      else ' ' :: b :: collapseRuns rest
    else a :: collapseRuns (b :: rest)

/-- Embeds `_normalize` (`main.py` lines 104-107): collapse horizontal
whitespace runs, then `str.strip()`. -/
def _normalize (text : String) : String :=
  if text = "" then ""
  else pyStrip (String.mk (collapseRuns text.data))

/-- The `out` produced by the backend section of `translate_text` (`main.py`
lines 120-138): the stripped chat-completion content on success, the shielded
base text when the call raises (`except` branch) or when no client is
configured (`else` branch). -/
def backendOut (backend : Option (Option String)) (base : String) : String :=
  match backend with
  | some (some s) => pyStrip s
  | some none => base
  | none => base

/-- The signature step of `translate_text` (`main.py` lines 143-144),
`out = f"{out}\n\n{SIGNATURE}" if out else SIGNATURE` guarded by
`if SIGNATURE:` — written with the Python truthiness tests spelled as
emptiness tests. -/
def addSignature (signature out : String) : String :=
  if signature = "" then out
  else if out = "" then signature
  else out ++ "\n\n" ++ signature

/-- Embeds `translate_text` (`main.py` lines 110-146).  The OpenAI call is
the configured `backend`; its prompt (which embeds the target language) is
behaviourally irrelevant to the claims, so the `target_lang` argument is
dropped.  Only the chat-completion call is inside a `try`; the
`_preserve_hashtags` call is not, so its `re.error` propagates. -/
def translate_text (keepHashtags : Bool) (signature : String)
    (backend : Option (Option String)) (text : String) : Except String String :=
  if text = "" then Except.ok text
  else
    match (if keepHashtags then _preserve_hashtags (pyStrip text)
           else Except.ok (pyStrip text, ([] : List String))) with
    | Except.error e => Except.error e
    | Except.ok basePh =>
      Except.ok (addSignature signature
        (if keepHashtags then
          _restore_hashtags (backendOut backend basePh.1) basePh.2
         else backendOut backend basePh.1))

/-- The retry loop shared by `safe_send_file` and `safe_send_message`
(`main.py` lines 149-177), `for attempt in range(1, RETRY_COUNT + 1)`.  The
first argument is the number of loop iterations still available; `resp 0` is
the transport's response to the current call and the oracle is shifted for the
next call.  On success the function returns (`sent`, no further sleeps).  On
`FloodWaitError` it sleeps `seconds + 2` and moves to the next iteration —
also when this was the final iteration, in which case the loop ends and the
function falls through (`returnedNone`).  On any other exception it sleeps
`RETRY_DELAY_SEC` and retries while `attempt < RETRY_COUNT`, and re-raises on
the final iteration. -/
def safeSendLoop (retryDelay : Nat) : Nat → (Nat → Resp) → SendOutcome × List Nat
  | 0, _ => (SendOutcome.returnedNone, [])
  | remaining + 1, resp =>
    match resp 0 with
    | Resp.ok => (SendOutcome.sent, [])
    | Resp.floodWait s =>
      let r := safeSendLoop retryDelay remaining (fun n => resp (n + 1))
      (r.1, (s + 2) :: r.2)
    | Resp.err d =>
      if remaining = 0 then (SendOutcome.raised d, [])
      else
        let r := safeSendLoop retryDelay remaining (fun n => resp (n + 1))
        (r.1, retryDelay :: r.2)

/-- `safe_send_file` / `safe_send_message`: run the retry loop with the full
`RETRY_COUNT` budget.  Returns the outcome together with the list of sleep
durations performed, in order. -/
def safe_send (retryCount retryDelay : Nat) (resp : Nat → Resp) :
    SendOutcome × List Nat :=
  safeSendLoop retryDelay retryCount resp

/-- The sort key relation of `sorted(messages, key=lambda m: m.id)`. -/
def msgLe (a b : Msg) : Prop :=
  a.id ≤ b.id

instance : DecidableRel msgLe :=
  fun a b => Nat.decLe a.id b.id

instance : IsTotal Msg msgLe :=
  ⟨fun a b => Nat.le_total a.id b.id⟩

instance : IsTrans Msg msgLe :=
  ⟨fun _ _ _ => Nat.le_trans⟩

/-- `sorted(messages, key=lambda m: m.id)` — Python's stable sort, modelled by
stable insertion sort on the id key. -/
def sortById (msgs : List Msg) : List Msg :=
  List.insertionSort msgLe msgs

/-- Embeds `repost_single_message` (`main.py` lines 180-196).  Takes the
current `state["last_id"]` and returns the new watermark together with the
deliveries that reached the target; exceptions (from `translate_text` or from
`safe_send_*` after retry exhaustion) propagate as `Except.error`, leaving the
watermark untouched.  A `safe_send_file` that falls through returning `None`
is not an exception: the function proceeds to advance the watermark. -/
def repost_single_message (cfg : Config) (resp : Nat → Resp) (st : Nat)
    (m : Msg) : Except String (Nat × List Delivery) :=
  if m.id ≤ st then Except.ok (st, [])
  else
    match translate_text cfg.keepHashtags cfg.signature cfg.backend
        (caption_src m) with
    | Except.error e => Except.error e
    | Except.ok tr =>
      match m.media with
      | some content =>
        (match safe_send cfg.retryCount cfg.retryDelay resp with
         | (SendOutcome.sent, _) =>
           Except.ok (m.id, [Delivery.sendFile [content] (_normalize tr)])
         | (SendOutcome.returnedNone, _) => Except.ok (m.id, [])
         | (SendOutcome.raised e, _) => Except.error e)
      | none =>
        if _normalize tr = "" then Except.ok (m.id, [])
        else
          (match safe_send cfg.retryCount cfg.retryDelay resp with
           | (SendOutcome.sent, _) =>
             Except.ok (m.id, [Delivery.sendMessage (_normalize tr)])
           | (SendOutcome.returnedNone, _) => Except.ok (m.id, [])
           | (SendOutcome.raised e, _) => Except.error e)

/-- Embeds `repost_media_group` (`main.py` lines 198-220): sort the collected
messages ascending by id, take `messages[-1]` (an `IndexError` on an empty
list), dedup-check against the watermark, compose the caption from the last
message, collect the media of all messages in sorted order, and deliver the
batch — or, when there is no media, a text message iff the caption is
non-empty (the Python `if files: ... elif caption_tr: ... ` chain, written
with the empty cases first). -/
def repost_media_group (cfg : Config) (resp : Nat → Resp) (st : Nat)
    (msgs : List Msg) : Except String (Nat × List Delivery) :=
  match (sortById msgs).getLast? with
  | none => Except.error "IndexError: list index out of range"
  | some last_msg =>
    if last_msg.id ≤ st then Except.ok (st, [])
    else
      match translate_text cfg.keepHashtags cfg.signature cfg.backend
          (caption_src last_msg) with
      | Except.error e => Except.error e
      | Except.ok tr =>
        if (sortById msgs).filterMap Msg.media = [] then
          (if _normalize tr = "" then Except.ok (last_msg.id, [])
           else
             match safe_send cfg.retryCount cfg.retryDelay resp with
             | (SendOutcome.sent, _) =>
               Except.ok (last_msg.id, [Delivery.sendMessage (_normalize tr)])
             | (SendOutcome.returnedNone, _) => Except.ok (last_msg.id, [])
             | (SendOutcome.raised e, _) => Except.error e)
        else
          (match safe_send cfg.retryCount cfg.retryDelay resp with
           | (SendOutcome.sent, _) =>
             Except.ok (last_msg.id,
               [Delivery.sendFile ((sortById msgs).filterMap Msg.media)
                 (_normalize tr)])
           | (SendOutcome.returnedNone, _) => Except.ok (last_msg.id, [])
           | (SendOutcome.raised e, _) => Except.error e)

/-- Embeds `handle_new_message` (`main.py` lines 222-234).  `recent` is the
window of messages yielded by `client.iter_messages(SOURCE, reverse=True,
limit=40)` after the pre-scan sleep.  For a grouped message the window is
filtered to the same `grouped_id`; only a non-empty collection is reposted —
an empty scan falls off the end of the function without touching anything. -/
def handle_new_message (cfg : Config) (resp : Nat → Resp) (recent : List Msg)
    (st : Nat) (m : Msg) : Except String (Nat × List Delivery) :=
  match m.grouped_id with
  | some gid =>
    if recent.filter (fun x => x.grouped_id == some gid) = [] then
      Except.ok (st, [])
    else
      repost_media_group cfg resp st
        (recent.filter (fun x => x.grouped_id == some gid))
  | none => repost_single_message cfg resp st m

/-- Embeds the `on_new_post` event handler (`main.py` lines 237-242): any
exception from `handle_new_message` is caught and logged, leaving the
watermark unchanged and delivering nothing. -/
def on_new_post (cfg : Config) (resp : Nat → Resp) (recent : List Msg)
    (st : Nat) (m : Msg) : Nat × List Delivery :=
  match handle_new_message cfg resp recent st m with
  | Except.ok r => r
  | Except.error _ => (st, [])

/-- A logical Post: one ungrouped message, or the collected messages of one
`grouped_id`. -/
inductive Post
  | single (m : Msg)
  | group (ms : List Msg)

/-- The maximum id among the ids of a list of messages (0 for the empty
list). -/
def maxId (msgs : List Msg) : Nat :=
  (msgs.map Msg.id).foldl Nat.max 0

/-- The effective id of a Post: the maximum id among its items. -/
def effectiveId : Post → Nat
  | Post.single m => m.id
  | Post.group ms => maxId ms

/-- A Post is well-formed when a group is non-empty (both call sites,
`handle_new_message` and `initial_catchup`, guard `if grp:` before calling
`repost_media_group`). -/
def Post.wf : Post → Prop
  | Post.single _ => True
  | Post.group ms => ms ≠ []

/-- Dispatch a Post to the repost function the orchestrator would use. -/
def processPost (cfg : Config) (resp : Nat → Resp) (st : Nat) :
    Post → Except String (Nat × List Delivery)
  | Post.single m => repost_single_message cfg resp st m
  | Post.group ms => repost_media_group cfg resp st ms

/-- Sequential processing of a list of Posts, each with its own transport
oracle, in the style of `initial_catchup` (`main.py` lines 253-266) and of
the sequential live handler: a failing Post is logged and skipped, leaving
the watermark as it was, and processing continues. -/
def runSequence (cfg : Config) (st : Nat) :
    List (Post × (Nat → Resp)) → Nat × List Delivery
  | [] => (st, [])
  | (p, r) :: rest =>
    let first :=
      match processPost cfg r st p with
      | Except.ok pr => pr
      | Except.error _ => (st, [])
    let restRes := runSequence cfg first.1 rest
    (restRes.1, first.2 ++ restRes.2)

/-- Every Post in the list commits: its repost returns successfully and its
effective id is strictly above the watermark current at its turn. -/
def allCommit (cfg : Config) : Nat → List (Post × (Nat → Resp)) → Prop
  | _, [] => True
  | st, (p, r) :: rest =>
    ∃ st' acts, processPost cfg r st p = Except.ok (st', acts) ∧
      st < effectiveId p ∧ allCommit cfg st' rest

/- ### Transport oracles used by the claims -/

/-- Oracle answering the first `k` transport calls with `FloodWaitError`
(required wait `w` seconds) and every later call with success. -/
def rlThenOk (k w : Nat) : Nat → Resp :=
  fun n => if n < k then Resp.floodWait w else Resp.ok

/-- Oracle answering every transport call with the same non-rate-limit
exception. -/
def constErr (d : String) : Nat → Resp :=
  fun _ => Resp.err d

/-- Oracle answering every transport call with success. -/
def allOk : Nat → Resp :=
  fun _ => Resp.ok

/-- `KEEP_HASHTAGS=1`, no signature, no OpenAI key, `RETRY_COUNT=3`,
`RETRY_DELAY_SEC=2` — the repository's default configuration. -/
def cfgPlain : Config :=
  ⟨true, "", none, 3, 2⟩

/-- A live media message with no caption text, id 5. -/
def msgMedia5 : Msg :=
  ⟨5, none, none, some 99, none⟩

/-- Oracle answering every transport call with FloodWaitError(1). -/
def allFlood : Nat → Resp :=
  fun _ => Resp.floodWait 1

/-- `KEEP_HASHTAGS=0`, no signature, no OpenAI key — a configuration whose
caption pipeline is a pure passthrough. -/
def cfgNoHash : Config :=
  ⟨false, "", none, 3, 2⟩

/-- Grouped source items with ids 5, 7 and 6 sharing `grouped_id` 9,
carrying media tokens 50, 70 and 60 and texts naming their ids. -/
def m5g : Msg :=
  ⟨5, some "five", none, some 50, some 9⟩

def m7g : Msg :=
  ⟨7, some "seven", none, some 70, some 9⟩

def m6g : Msg :=
  ⟨6, some "six", none, some 60, some 9⟩

/-- A grouped message (grouped_id 42, id 5) triggering a group scan. -/
def gMsg : Msg :=
  ⟨5, none, none, some 7, some 42⟩

/-- Two empty single Posts with ids 1 and 3, each with an all-success
transport. -/
def itemsC5 : List (Post × (Nat → Resp)) :=
  [(Post.single ⟨1, none, none, none, none⟩, allOk),
   (Post.single ⟨3, none, none, none, none⟩, allOk)]

/- ### Helper lemmas on folded maxima and sorting -/

theorem natMax_eq (a b : Nat) : Nat.max a b = if a ≤ b then b else a :=
  Nat.max_def

theorem foldl_max_shift (l : List Nat) :
    ∀ a : Nat, l.foldl Nat.max a = Nat.max a (l.foldl Nat.max 0) := by
  induction l with
  | nil => intro a; simp
  | cons x t ih =>
    intro a
    simp only [List.foldl_cons]
    rw [ih (Nat.max a x), ih (Nat.max 0 x)]
    simp only [natMax_eq]
    split_ifs <;> omega

theorem foldl_max_cons (x : Nat) (l : List Nat) :
    (x :: l).foldl Nat.max 0 = Nat.max x (l.foldl Nat.max 0) := by
  simp only [List.foldl_cons]
  rw [foldl_max_shift]
  simp only [natMax_eq]
  split_ifs <;> omega

theorem maxId_cons (m : Msg) (t : List Msg) :
    maxId (m :: t) = Nat.max m.id (maxId t) := by
  simp only [maxId, List.map_cons, List.foldl_cons]
  rw [foldl_max_shift]
  simp only [natMax_eq]
  split_ifs <;> omega

theorem le_maxId_of_mem {x : Msg} {l : List Msg} (hx : x ∈ l) :
    x.id ≤ maxId l := by
  induction l with
  | nil => cases hx
  | cons a t ih =>
    rw [maxId_cons]
    rcases List.mem_cons.mp hx with h | h
    · exact h ▸ Nat.le_max_left _ _
    · exact Nat.le_trans (ih h) (Nat.le_max_right _ _)

theorem maxId_orderedInsert (m : Msg) (l : List Msg) :
    maxId (List.orderedInsert msgLe m l) = Nat.max m.id (maxId l) := by
  induction l with
  | nil =>
    simp only [List.orderedInsert]
    exact maxId_cons m []
  | cons b t ih =>
    by_cases h : msgLe m b
    · rw [List.orderedInsert_of_le _ _ h, maxId_cons, maxId_cons]
    · simp only [List.orderedInsert, if_neg h]
      rw [maxId_cons, ih, maxId_cons]
      simp only [natMax_eq]
      split_ifs <;> omega

theorem maxId_sortById (l : List Msg) : maxId (sortById l) = maxId l := by
  induction l with
  | nil => rfl
  | cons m t ih =>
    simp only [sortById, List.insertionSort] at ih ⊢
    rw [maxId_orderedInsert, ih, maxId_cons]

theorem sortById_sorted (l : List Msg) : List.Sorted msgLe (sortById l) :=
  List.sorted_insertionSort msgLe l

theorem sortById_perm (l : List Msg) : List.Perm (sortById l) l :=
  List.perm_insertionSort msgLe l

theorem getLast_id_of_sorted :
    ∀ l : List Msg, List.Sorted msgLe l → ∀ lm, l.getLast? = some lm →
      lm.id = maxId l := by
  intro l
  induction l with
  | nil => intro _ lm h; cases h
  | cons a t ih =>
    intro hs lm hlast
    cases t with
    | nil =>
      simp only [List.getLast?_singleton, Option.some.injEq] at hlast
      subst hlast
      have h0 : maxId ([] : List Msg) = 0 := rfl
      rw [maxId_cons, h0]
      simp [natMax_eq]
    | cons b t2 =>
      rw [List.getLast?_cons_cons] at hlast
      have hst := (List.sorted_cons.mp hs)
      have hlm := ih hst.2 lm hlast
      have hab : a.id ≤ b.id := hst.1 b (List.mem_cons_self b t2)
      have hble : b.id ≤ maxId (b :: t2) :=
        le_maxId_of_mem (List.mem_cons_self b t2)
      rw [maxId_cons, hlm]
      simp only [natMax_eq]
      split_ifs <;> omega

theorem sortById_getLast_id {msgs : List Msg} {lm : Msg}
    (h : (sortById msgs).getLast? = some lm) : lm.id = maxId msgs := by
  have := getLast_id_of_sorted (sortById msgs) (sortById_sorted msgs) lm h
  rw [this, maxId_sortById]

theorem sortById_getLast_isSome {msgs : List Msg} (h : msgs ≠ []) :
    ∃ lm, (sortById msgs).getLast? = some lm := by
  have hne : sortById msgs ≠ [] := by
    intro hnil
    have p := sortById_perm msgs
    rw [hnil] at p
    exact h p.symm.eq_nil
  cases hl : (sortById msgs).getLast? with
  | none => exact absurd (List.getLast?_eq_none_iff.mp hl) hne
  | some lm => exact ⟨lm, rfl⟩

/- ### Watermark characterization of the repost operations -/

theorem repost_single_ok_watermark {cfg : Config} {r : Nat → Resp} {st : Nat}
    {m : Msg} {st' : Nat} {acts : List Delivery}
    (h : repost_single_message cfg r st m = Except.ok (st', acts)) :
    st' = Nat.max st m.id := by
  unfold repost_single_message at h
  split at h
  · rename_i hle
    simp only [Except.ok.injEq, Prod.mk.injEq] at h
    obtain ⟨h1, -⟩ := h
    rw [natMax_eq]
    split_ifs <;> omega
  · rename_i hgt
    split at h
    · exact Except.noConfusion h
    · split at h
      · split at h <;>
          first
            | exact Except.noConfusion h
            | (simp only [Except.ok.injEq, Prod.mk.injEq] at h
               obtain ⟨h1, -⟩ := h
               rw [natMax_eq]
               split_ifs <;> omega)
      · split at h
        · simp only [Except.ok.injEq, Prod.mk.injEq] at h
          obtain ⟨h1, -⟩ := h
          rw [natMax_eq]
          split_ifs <;> omega
        · split at h <;>
            first
              | exact Except.noConfusion h
              | (simp only [Except.ok.injEq, Prod.mk.injEq] at h
                 obtain ⟨h1, -⟩ := h
                 rw [natMax_eq]
                 split_ifs <;> omega)

theorem repost_group_ok_watermark {cfg : Config} {r : Nat → Resp} {st : Nat}
    {msgs : List Msg} {st' : Nat} {acts : List Delivery}
    (h : repost_media_group cfg r st msgs = Except.ok (st', acts)) :
    st' = Nat.max st (maxId msgs) := by
  unfold repost_media_group at h
  split at h
  · exact Except.noConfusion h
  · rename_i lm heq
    have hlm := sortById_getLast_id heq
    split at h
    · rename_i hle
      simp only [Except.ok.injEq, Prod.mk.injEq] at h
      obtain ⟨h1, -⟩ := h
      rw [natMax_eq]
      split_ifs <;> omega
    · rename_i hgt
      split at h
      · exact Except.noConfusion h
      · split at h
        · split at h
          · simp only [Except.ok.injEq, Prod.mk.injEq] at h
            obtain ⟨h1, -⟩ := h
            rw [natMax_eq]
            split_ifs <;> omega
          · split at h <;>
              first
                | exact Except.noConfusion h
                | (simp only [Except.ok.injEq, Prod.mk.injEq] at h
                   obtain ⟨h1, -⟩ := h
                   rw [natMax_eq]
                   split_ifs <;> omega)
        · split at h <;>
            first
              | exact Except.noConfusion h
              | (simp only [Except.ok.injEq, Prod.mk.injEq] at h
                 obtain ⟨h1, -⟩ := h
                 rw [natMax_eq]
                 split_ifs <;> omega)

theorem processPost_ok_watermark {cfg : Config} {r : Nat → Resp} {st : Nat}
    {p : Post} {st' : Nat} {acts : List Delivery}
    (h : processPost cfg r st p = Except.ok (st', acts)) :
    st' = Nat.max st (effectiveId p) := by
  cases p with
  | single m => exact repost_single_ok_watermark h
  | group ms => exact repost_group_ok_watermark h

theorem runSequence_monotone (cfg : Config) :
    ∀ (items : List (Post × (Nat → Resp))) (st : Nat),
      st ≤ (runSequence cfg st items).1 := by
  intro items
  induction items with
  | nil => intro st; exact Nat.le_refl st
  | cons pr rest ih =>
    intro st
    obtain ⟨p, r⟩ := pr
    simp only [runSequence]
    cases hp : processPost cfg r st p with
    | ok res =>
      obtain ⟨st1, a1⟩ := res
      have hst1 := processPost_ok_watermark hp
      have h1 : st ≤ st1 := by
        rw [natMax_eq] at hst1
        split_ifs at hst1 <;> omega
      exact Nat.le_trans h1 (ih st1)
    | error e => exact ih st

theorem runSequence_allCommit (cfg : Config)
    (items : List (Post × (Nat → Resp))) :
    ∀ st : Nat, items ≠ [] → allCommit cfg st items →
      (runSequence cfg st items).1 =
        (items.map (fun pr => effectiveId pr.1)).foldl Nat.max 0 := by
  induction items with
  | nil => intro st h; exact absurd rfl h
  | cons pr rest ih =>
    intro st _ hac
    obtain ⟨p, r⟩ := pr
    obtain ⟨st1, a1, hok, hlt, hrest⟩ := hac
    have hst1 : st1 = effectiveId p := by
      have h2 := processPost_ok_watermark hok
      rw [natMax_eq] at h2
      split_ifs at h2 <;> omega
    simp only [runSequence, hok]
    cases rest with
    | nil =>
      simp only [runSequence, List.map_cons, List.map_nil, List.foldl_cons,
        List.foldl_nil]
      rw [natMax_eq]
      split_ifs <;> omega
    | cons pr2 rest2 =>
      obtain ⟨p2, r2⟩ := pr2
      obtain ⟨st2, a2, hok2, hlt2, hrest2⟩ := hrest
      have ihres := ih st1 (by simp) ⟨st2, a2, hok2, hlt2, hrest2⟩
      rw [ihres]
      simp only [List.map_cons, foldl_max_cons]
      simp only [natMax_eq]
      split_ifs <;> omega

theorem safeSendLoop_ok {D rem : Nat} {resp : Nat → Resp}
    (h0 : resp 0 = Resp.ok) :
    safeSendLoop D (rem + 1) resp = (SendOutcome.sent, []) := by
  simp only [safeSendLoop, h0]

theorem safeSendLoop_floodWait {D rem : Nat} {resp : Nat → Resp} {w : Nat}
    (h0 : resp 0 = Resp.floodWait w) :
    safeSendLoop D (rem + 1) resp =
      ((safeSendLoop D rem (fun n => resp (n + 1))).1,
        (w + 2) :: (safeSendLoop D rem (fun n => resp (n + 1))).2) := by
  simp only [safeSendLoop, h0]

theorem safeSendLoop_err {D rem : Nat} {resp : Nat → Resp} {d : String}
    (h0 : resp 0 = Resp.err d) :
    safeSendLoop D (rem + 1) resp =
      if rem = 0 then (SendOutcome.raised d, [])
      else ((safeSendLoop D rem (fun n => resp (n + 1))).1,
        D :: (safeSendLoop D rem (fun n => resp (n + 1))).2) := by
  simp only [safeSendLoop, h0]

theorem safeSendLoop_constErr (D : Nat) (d : String) :
    ∀ rem : Nat, 1 ≤ rem →
      safeSendLoop D rem (constErr d) =
        (SendOutcome.raised d, List.replicate (rem - 1) D) := by
  intro rem
  induction rem with
  | zero => intro h; exact absurd h (by omega)
  | succ r ih =>
    intro _
    cases r with
    | zero => rfl
    | succ q =>
      have hres := ih (by omega)
      rw [safeSendLoop_err rfl, if_neg (by omega : ¬(q + 1 = 0))]
      rw [show (fun n : Nat => constErr d (n + 1)) = constErr d from rfl, hres]
      rfl

/- ### Claim C1 -/

/-- C1 counterexample: the claim says a rate-limited attempt does not count
against the attempt budget `R`, so any number of rate-limit responses
followed by a success must end in a successful send.  With `R = 3` and the
transport answering the first three calls with FloodWaitError(1) and the
fourth with success, the retry loop instead exhausts its three iterations on
the rate limits and falls through, returning `None` — the send never
succeeds. -/
theorem rate_limit_consumes_budget_cex :
    (safe_send 3 2 (rlThenOk 3 1)).1 = SendOutcome.returnedNone ∧
      ¬(safe_send 3 2 (rlThenOk 3 1)).1 = SendOutcome.sent := by
  decide

/-- C1 (amended): on a rate-limit signal carrying wait `w` the Send Executor
sleeps `w + 2` seconds and retries, but the rate-limited attempt does consume
one of the `R` attempts; whenever fewer than `R` rate-limit responses precede
the first success, the send succeeds, having slept `w + 2` once per rate
limit.  In particular with `R = 3` and RateLimited(1), RateLimited(1),
success, the send returns success and nothing is raised. -/
theorem rate_limit_backoff_within_budget :
    ∀ R D k w : Nat, k < R →
      safe_send R D (rlThenOk k w) =
        (SendOutcome.sent, List.replicate k (w + 2)) := by
  intro R D k w
  induction k generalizing R with
  | zero =>
    intro hR
    obtain ⟨r, rfl⟩ : ∃ r, R = r + 1 := ⟨R - 1, by omega⟩
    unfold safe_send
    rw [safeSendLoop_ok rfl]
    rfl
  | succ k ih =>
    intro hR
    obtain ⟨r, rfl⟩ : ∃ r, R = r + 1 := ⟨R - 1, by omega⟩
    unfold safe_send
    rw [safeSendLoop_floodWait
      (show rlThenOk (k + 1) w 0 = Resp.floodWait w by simp [rlThenOk])]
    have hshift : (fun n => rlThenOk (k + 1) w (n + 1)) = rlThenOk k w := by
      funext n
      simp only [rlThenOk, Nat.add_lt_add_iff_right]
    rw [hshift]
    have hres := ih r (by omega)
    unfold safe_send at hres
    rw [hres]
    rfl

/-- C1 witness: the spec's own example, `R = 3` with two rate limits before
success, does succeed, with backoff sleeps of `1 + 2` seconds each. -/
theorem rate_limit_backoff_within_budget_witness :
    safe_send 3 2 (rlThenOk 2 1) = (SendOutcome.sent, [3, 3]) :=
  rate_limit_backoff_within_budget 3 2 2 1 (by decide)

/- ### Claim C2 -/

/-- C2 (code bug): with the default `RETRY_COUNT = 3` and a transport that
answers every call with FloodWaitError(1), `safe_send_file` exhausts its loop
sleeping and returns `None` without ever delivering; `repost_single_message`
treats that as success, performs no delivery, and still advances the
watermark from 0 to the message id 5 — contradicting the claim that the
watermark is advanced only after the repost fully succeeds. -/
theorem floodwait_exhaustion_advances_watermark :
    (safe_send 3 2 allFlood).1 = SendOutcome.returnedNone ∧
      repost_single_message cfgPlain allFlood 0 msgMedia5 =
        Except.ok (5, []) :=
  ⟨rfl, rfl⟩

/- ### Claim C3 -/

/-- C3 (code bug): shielding is not the identity-preserving transform the
claim requires because `_preserve_hashtags` raises `re.error` on every
non-empty input — the pattern `(#[\w\p{L}\p{N}_]+)` is rejected by Python's
`re` module (`bad escape \p`).  At the well-formed hashtag text
`"salom #bola"` the shield raises instead of returning a shielded text, so
`restore(shield(t)) = t` cannot hold. -/
theorem preserve_hashtags_raises_bad_escape :
    _preserve_hashtags "salom #bola" =
      Except.error "re.error: bad escape \\p" :=
  rfl

/- ### Claim C4 -/

/-- C4 (code bug): with hashtag shielding enabled (the default) and no
translation backend configured, `translate_text` on the non-empty text
`"hi"` raises `re.error` from the unguarded `_preserve_hashtags` call instead
of returning the input unchanged — the failure propagates to the caller,
contradicting the claim that translation failures never escalate. -/
theorem translate_raises_bad_escape :
    translate_text true "" none "hi" =
      Except.error "re.error: bad escape \\p" :=
  rfl

/- ### Claim C5 -/

/-- C5: the watermark never decreases across any sequence of Post-processing
operations (including failing and skipped ones), and when every Post in a
non-empty sequence commits successfully, the final watermark equals the
maximum effective id among the committed Posts. -/
theorem watermark_monotone_and_commit_max :
    ∀ (cfg : Config) (st : Nat) (items : List (Post × (Nat → Resp))),
      st ≤ (runSequence cfg st items).1 ∧
      (items ≠ [] → allCommit cfg st items →
        (runSequence cfg st items).1 =
          (items.map (fun pr => effectiveId pr.1)).foldl Nat.max 0) :=
  fun cfg st items =>
    ⟨runSequence_monotone cfg items st, runSequence_allCommit cfg items st⟩

/-- C5 witness: two empty single Posts with ids 1 and 3 both commit from
watermark 0, and the final watermark is 3, their maximum effective id. -/
theorem watermark_monotone_and_commit_max_witness :
    0 ≤ (runSequence cfgPlain 0 itemsC5).1 ∧
      (runSequence cfgPlain 0 itemsC5).1 = 3 := by
  have h := watermark_monotone_and_commit_max cfgPlain 0 itemsC5
  refine ⟨h.1, ?_⟩
  have h2 := h.2 (by simp [itemsC5])
    ⟨1, [], rfl, by decide, 3, [], rfl, by decide, trivial⟩
  rw [h2]
  rfl

/- ### Claim C6 -/

/-- C6: processing a well-formed Post whose effective id is at most the
current watermark produces no outbound delivery and no state mutation: the
handler returns with the watermark unchanged and an empty delivery list. -/
theorem dedup_skip_no_send_no_mutation :
    ∀ (cfg : Config) (r : Nat → Resp) (st : Nat) (p : Post), p.wf →
      effectiveId p ≤ st → processPost cfg r st p = Except.ok (st, []) := by
  intro cfg r st p hwf hle
  cases p with
  | single m =>
    have hle' : m.id ≤ st := hle
    simp only [processPost]
    unfold repost_single_message
    rw [if_pos hle']
  | group ms =>
    obtain ⟨lm, hlast⟩ := sortById_getLast_isSome hwf
    have hid := sortById_getLast_id hlast
    have hle' : maxId ms ≤ st := hle
    simp only [processPost]
    unfold repost_media_group
    simp only [hlast]
    rw [if_pos (show lm.id ≤ st by rw [hid]; exact hle')]

/-- C6 witness: a group with effective id 7 against watermark 10 is skipped
with no delivery and no watermark change. -/
theorem dedup_skip_no_send_no_mutation_witness :
    processPost cfgPlain allOk 10 (Post.group [m7g, m6g]) =
      Except.ok (10, []) :=
  dedup_skip_no_send_no_mutation cfgPlain allOk 10 (Post.group [m7g, m6g])
    (List.cons_ne_nil _ _) (by decide)

/- ### Claim C7 -/

/-- C7: for every non-empty collected group, the materialized list is sorted
ascending by id and is a permutation of the input, and its last element — the
one whose text becomes the caption — carries the maximum id; concretely, for
the group with ids 5, 7, 6, the delivered media order is 50, 60, 70 (the
items in id order 5, 6, 7) and the caption comes from item 7's text. -/
theorem group_sorted_and_caption_from_max :
    (∀ msgs : List Msg, msgs ≠ [] →
      List.Sorted msgLe (sortById msgs) ∧ List.Perm (sortById msgs) msgs ∧
      ∃ lm, (sortById msgs).getLast? = some lm ∧ ∀ x ∈ msgs, x.id ≤ lm.id) ∧
    repost_media_group cfgNoHash allOk 0 [m5g, m7g, m6g] =
      Except.ok (7, [Delivery.sendFile [50, 60, 70] "seven"]) := by
  constructor
  · intro msgs hne
    refine ⟨sortById_sorted msgs, sortById_perm msgs, ?_⟩
    obtain ⟨lm, hlast⟩ := sortById_getLast_isSome hne
    refine ⟨lm, hlast, ?_⟩
    intro x hx
    rw [sortById_getLast_id hlast]
    exact le_maxId_of_mem hx
  · rfl

/-- C7 witness: the general part applied to the concrete group with ids
5, 7, 6. -/
theorem group_sorted_and_caption_from_max_witness :
    List.Sorted msgLe (sortById [m5g, m7g, m6g]) ∧
      List.Perm (sortById [m5g, m7g, m6g]) [m5g, m7g, m6g] ∧
      ∃ lm, (sortById [m5g, m7g, m6g]).getLast? = some lm ∧
        ∀ x ∈ [m5g, m7g, m6g], x.id ≤ lm.id :=
  group_sorted_and_caption_from_max.1 [m5g, m7g, m6g] (by decide)

/- ### Claim C8 -/

/-- C8: with `R` consecutive non-rate-limit failures, the Send Executor
sleeps the fixed delay `D` between attempts (`R - 1` sleeps), re-raises the
failure on the `R`-th consumed attempt, the failure propagates out of
`repost_single_message` without advancing the watermark, and the live event
handler `on_new_post` swallows it leaving the watermark unchanged with no
delivery. -/
theorem retry_exhaustion_propagates :
    ∀ (cfg : Config) (st mid c : Nat) (d : String) (recent : List Msg),
      1 ≤ cfg.retryCount → st < mid →
      safe_send cfg.retryCount cfg.retryDelay (constErr d) =
        (SendOutcome.raised d,
          List.replicate (cfg.retryCount - 1) cfg.retryDelay) ∧
      repost_single_message cfg (constErr d) st
          ⟨mid, none, none, some c, none⟩ = Except.error d ∧
      on_new_post cfg (constErr d) recent st ⟨mid, none, none, some c, none⟩ =
        (st, []) := by
  intro cfg st mid c d recent hR hlt
  have hsend : safe_send cfg.retryCount cfg.retryDelay (constErr d) =
      (SendOutcome.raised d,
        List.replicate (cfg.retryCount - 1) cfg.retryDelay) :=
    safeSendLoop_constErr cfg.retryDelay d cfg.retryCount hR
  have hrepost : repost_single_message cfg (constErr d) st
      ⟨mid, none, none, some c, none⟩ = Except.error d := by
    unfold repost_single_message
    rw [if_neg (by omega : ¬(mid ≤ st))]
    have htr : translate_text cfg.keepHashtags cfg.signature cfg.backend
        (caption_src ⟨mid, none, none, some c, none⟩) = Except.ok "" := rfl
    simp only [htr, hsend]
  refine ⟨hsend, hrepost, ?_⟩
  have hhandle : handle_new_message cfg (constErr d) recent st
      ⟨mid, none, none, some c, none⟩ = Except.error d := hrepost
  unfold on_new_post
  rw [hhandle]

/-- C8 witness: the spec's own example `R = 2` with two failures, at
watermark 0 and message id 5. -/
theorem retry_exhaustion_propagates_witness :
    safe_send 2 2 (constErr "boom") =
        (SendOutcome.raised "boom", [2]) ∧
      repost_single_message ⟨true, "", none, 2, 2⟩ (constErr "boom") 0
          ⟨5, none, none, some 99, none⟩ = Except.error "boom" ∧
      on_new_post ⟨true, "", none, 2, 2⟩ (constErr "boom") [] 0
          ⟨5, none, none, some 99, none⟩ = (0, []) :=
  retry_exhaustion_propagates ⟨true, "", none, 2, 2⟩ 0 5 99 "boom" []
    (by decide) (by decide)

/- ### Claim C9 -/

/-- C9 counterexample: the claim says a grouped Post whose group scan yields
zero matching items still advances the watermark to the Post's effective id
(here 5); in the code, `handle_new_message` does nothing at all when the
filtered scan is empty — the watermark stays 0. -/
theorem empty_scan_no_advance_cex :
    handle_new_message cfgPlain allOk [] 0 gMsg = Except.ok (0, []) ∧
      ¬handle_new_message cfgPlain allOk [] 0 gMsg = Except.ok (5, []) := by
  have h1 : handle_new_message cfgPlain allOk [] 0 gMsg =
      Except.ok (0, []) := rfl
  refine ⟨h1, fun hc => ?_⟩
  have h2 := congrArg Prod.fst (Except.ok.inj (h1.symm.trans hc))
  exact absurd h2 (by decide)

/-- C9 (amended): a grouped Post whose scan yields zero matching items is
skipped entirely — no outbound delivery and no watermark advance; a live
Post with no text and no media still advances the watermark to its id with
no outbound delivery. -/
theorem empty_post_and_empty_scan_behavior :
    ∀ (cfg : Config) (r : Nat → Resp) (recent : List Msg) (st : Nat)
      (m : Msg) (gid : Nat) (mid : Nat),
      (m.grouped_id = some gid →
        recent.filter (fun x => x.grouped_id == some gid) = [] →
        handle_new_message cfg r recent st m = Except.ok (st, [])) ∧
      (st < mid →
        repost_single_message cfg r st ⟨mid, none, none, none, none⟩ =
          Except.ok (mid, [])) := by
  intro cfg r recent st m gid mid
  constructor
  · intro hg hfilter
    unfold handle_new_message
    simp only [hg, hfilter, if_pos]
  · intro hlt
    unfold repost_single_message
    rw [if_neg (by omega : ¬(mid ≤ st))]
    have htr : translate_text cfg.keepHashtags cfg.signature cfg.backend
        (caption_src ⟨mid, none, none, none, none⟩) = Except.ok "" := rfl
    simp only [htr]
    rfl

/-- C9 witness: the empty-scan skip at watermark 0 for the grouped message
with id 5, and the empty-Post commit advancing the watermark from 0 to 5. -/
theorem empty_post_and_empty_scan_behavior_witness :
    handle_new_message cfgPlain allOk [] 0 gMsg = Except.ok (0, []) ∧
      repost_single_message cfgPlain allOk 0 ⟨5, none, none, none, none⟩ =
        Except.ok (5, []) :=
  ⟨(empty_post_and_empty_scan_behavior cfgPlain allOk [] 0 gMsg 42 5).1
    rfl rfl,
   (empty_post_and_empty_scan_behavior cfgPlain allOk [] 0 gMsg 42 5).2
    (by decide)⟩

/- ### Claim C10 -/

/-- C10 counterexample: with a signature configured and an empty input text,
`translate_text` returns the empty text unchanged (the `if not text` early
return fires before the signature step), not the signature alone as the claim
requires for empty input. -/
theorem empty_text_no_signature_cex :
    translate_text true "Sig" none "" = Except.ok "" ∧
      ¬translate_text true "Sig" none "" = Except.ok "Sig" := by
  have h1 : translate_text true "Sig" none "" = Except.ok "" := rfl
  refine ⟨h1, fun hc => ?_⟩
  exact absurd (Except.ok.inj (h1.symm.trans hc)) (by decide)

/-- C10 (amended): when a signature is configured, the caption gets the
signature appended on a separate paragraph when the final text is non-empty,
and becomes the signature alone when the input text is non-empty but strips
to an empty caption; an empty input text, however, is returned as-is with no
signature. -/
theorem signature_append_behavior :
    ∀ (sig text : String) (kh : Bool), ¬sig = "" →
      translate_text kh sig none "" = Except.ok "" ∧
      (¬text = "" → pyStrip text = "" →
        translate_text kh sig none text = Except.ok sig) ∧
      (¬pyStrip text = "" →
        translate_text false sig none text =
          Except.ok (pyStrip text ++ "\n\n" ++ sig)) := by
  intro sig text kh hsig
  refine ⟨rfl, ?_, ?_⟩
  · intro hne htrim
    unfold translate_text
    rw [if_neg hne, htrim]
    cases kh <;>
      simp [_preserve_hashtags, _restore_hashtags, backendOut, addSignature,
        hsig]
  · intro htrimne
    have hne : ¬text = "" := by
      intro h
      rw [h] at htrimne
      exact htrimne rfl
    unfold translate_text
    rw [if_neg hne]
    simp [backendOut, addSignature, hsig, htrimne]

/-- C10 witness: a whitespace-only text yields the signature alone, and a
non-empty text (with shielding off) yields the text, a blank paragraph, and
the signature. -/
theorem signature_append_behavior_witness :
    translate_text true "S" none " " = Except.ok "S" ∧
      translate_text false "S" none "hi" = Except.ok "hi\n\nS" := by
  refine ⟨?_, ?_⟩
  · exact (signature_append_behavior "S" " " true (by decide)).2.1
      (by decide) (by decide)
  · have h := (signature_append_behavior "S" "hi" false (by decide)).2.2
      (by decide)
    exact h
